import Mathlib

/-!
Shallow embedding of `projects/mmdet3d_plugin/datasets/cached_dataloader.py`
(class `CachedDataLoader`), a caching adapter around a torch dataloader,
together with theorems about its behaviour.

Modelling choices:
* a wrapped dataloader is its reported `len` plus the stream of samples a
  fresh iterator over it produces, as a `List (Option α)`: the end of the
  list is iterator exhaustion, and a `none` entry is the Python value
  `None` produced as a sample.  `next(iterator, None)` therefore gives
  `none` both at the end of the list and at a `none` entry, exactly as in
  the source;
* the generator `__iter__` is run to completion (or to its abnormal end)
  by `iterLoop`, which returns the list of yielded samples, the final
  `_outputs` and `_curr_index` fields, the way the run ended
  (`RunOutcome`), and how many `next` calls were made on the fresh
  iterator;
* Python list indexing `self._outputs[self._curr_index]` is modelled with
  `List.get?`; an out-of-range access is the `indexError` outcome.
-/

namespace StreamPETR

/-- A wrapped torch dataloader: its reported length, the stream of samples
a fresh iterator over it produces (list end = exhaustion, a `none` entry =
the Python value `None` yielded as a sample), and its other object
attributes as an opaque partial map from names to values. -/
structure DataLoader (α : Type) where
  length : Nat
  items : List (Option α)
  attrs : String → Option Nat

/-- How a run of the generator body of `__iter__` ended: the outer `for`
loop ran to completion, the early `return` in the population loop fired
(line 41), or `self._outputs[self._curr_index]` was out of range
(an IndexError, line 43). -/
inductive RunOutcome where
  | completed
  | earlyReturn
  | indexError
deriving DecidableEq, Repr

/-- The observable result of running one traversal of the generator:
the samples yielded, the final `_outputs` and `_curr_index` fields, how
the run ended, and the number of `next` calls made on the fresh iterator
over the wrapped dataloader. -/
structure IterResult (α : Type) where
  yielded : List α
  outputs : Option (List α)
  curr_index : Nat
  outcome : RunOutcome
  pulls : Nat

/-- The cache population loop of `__iter__` (lines 34-42): starting from a
fresh iterator whose remaining stream is `items`, perform up to `n` times
`sample = next(iterator, None)`, stopping with the early `return` as soon
as a sample is `None`.  Returns the samples appended to `self._outputs`,
whether the early `return` fired, and the number of `next` calls made. -/
def pullBatches {α : Type} (items : List (Option α)) : Nat → List α × Bool × Nat
  | 0 => ([], false, 0)
  | Nat.succ n =>
    match items with
    | [] => ([], true, 1)
    | none :: _ => ([], true, 1)
    | some x :: rest =>
      let r := pullBatches rest n
      (x :: r.1, r.2.1, r.2.2 + 1)

/-- The outer loop of `__iter__` (lines 31-44), run for `fuel` iterations
(`fuel = range(len(self))` at the start of a full traversal), from current
fields `_outputs = outs` and `_curr_index = cur`, with `_num_batches = nb`
and the wrapped loader's fresh-iterator stream `items`.  Each iteration
populates the cache if `_outputs is None`, then yields
`self._outputs[self._curr_index]` and advances the cursor modulo
`_num_batches`. -/
def iterLoop {α : Type} (nb : Nat) (items : List (Option α)) :
    Nat → Option (List α) → Nat → IterResult α
  | 0, outs, cur => ⟨[], outs, cur, RunOutcome.completed, 0⟩
  | Nat.succ n, none, cur =>
    let p := pullBatches items nb
    if p.2.1 then ⟨[], some p.1, cur, RunOutcome.earlyReturn, p.2.2⟩
    else
      match p.1.get? cur with
      | none => ⟨[], some p.1, cur, RunOutcome.indexError, p.2.2⟩
      | some x =>
        let r := iterLoop nb items n (some p.1) ((cur + 1) % nb)
        ⟨x :: r.yielded, r.outputs, r.curr_index, r.outcome, p.2.2 + r.pulls⟩
  | Nat.succ n, some l, cur =>
    match l.get? cur with
    | none => ⟨[], some l, cur, RunOutcome.indexError, 0⟩
    | some x =>
      let r := iterLoop nb items n (some l) ((cur + 1) % nb)
      ⟨x :: r.yielded, r.outputs, r.curr_index, r.outcome, r.pulls⟩

/-- The state of a `CachedDataLoader` instance: the fields set by
`__init__` (the leading underscores of the Python names are dropped). -/
structure CachedDataLoader (α : Type) where
  dataloader : DataLoader α
  num_batches : Nat
  device : Option Unit
  outputs : Option (List α)
  curr_index : Nat

/-- `CachedDataLoader.__init__(dataloader, device, num_batches)`:
`_num_batches` is clamped to `min(num_batches, len(dataloader))`,
`_outputs` starts as `None` and `_curr_index` as `0`.  The `device`
argument is stored and never used by the control flow. -/
def CachedDataLoader.construct {α : Type} (dataloader : DataLoader α)
    (device : Option Unit) (num_batches : Nat) : CachedDataLoader α :=
  { dataloader := dataloader
    num_batches := min num_batches dataloader.length
    device := device
    outputs := none
    curr_index := 0 }

/-- `CachedDataLoader.__len__`: the wrapped loader's length, unchanged. -/
def CachedDataLoader.len {α : Type} (c : CachedDataLoader α) : Nat :=
  c.dataloader.length

/-- Run one full traversal (one generator produced by `__iter__`, driven
to its end) from the current state. -/
def CachedDataLoader.iterate {α : Type} (c : CachedDataLoader α) : IterResult α :=
  iterLoop c.num_batches c.dataloader.items c.len c.outputs c.curr_index

/-- The instance state after one full traversal: `_outputs` and
`_curr_index` are the generator's side effects; the other fields are
untouched. -/
def CachedDataLoader.afterIterate {α : Type} (c : CachedDataLoader α) :
    CachedDataLoader α :=
  { c with outputs := c.iterate.outputs, curr_index := c.iterate.curr_index }

/-- The state after `t` successive full traversals. -/
def runTraversals {α : Type} (c : CachedDataLoader α) : Nat → CachedDataLoader α
  | 0 => c
  | Nat.succ t => (runTraversals c t).afterIterate

/-- The attribute names the adapter finds the usual ways (its own instance
fields from `__init__` and its class methods), for which Python never
invokes `__getattr__`. -/
def CachedDataLoader.ownMembers : List String :=
  ["_dataloader", "_num_batches", "_device", "_outputs", "_curr_index",
   "__init__", "__len__", "__iter__", "__getattr__"]

/-- The body of `CachedDataLoader.__getattr__` (line 50): delegate to the
wrapped dataloader (`none` models an AttributeError from the loader). -/
def CachedDataLoader.getattr {α : Type} (c : CachedDataLoader α)
    (key : String) : Option Nat :=
  c.dataloader.attrs key

/-- Python attribute lookup on the adapter: `__getattr__` is only invoked
if `key` was not found the usual ways.  Own members hold values outside
the modelled attribute-value type, so they map to `none` here; the
delegation contract only concerns keys that are not own members. -/
def attrAccess {α : Type} (c : CachedDataLoader α) (key : String) : Option Nat :=
  if key ∈ CachedDataLoader.ownMembers then none else c.getattr key

/-- The fresh iterator over `items` produces at least `n` samples, none of
which is the Python value `None`. -/
def goodFirst {α : Type} (items : List (Option α)) (n : Nat) : Bool :=
  decide (n ≤ items.length) && (items.take n).all Option.isSome

/-- The cache the first traversal builds from loader `dl` with requested
cache size `R`, in the event that population completes: the first
`min(R, len(dl))` samples of the fresh iterator. -/
def cacheOf {α : Type} (dl : DataLoader α) (R : Nat) : List α :=
  List.filterMap id (dl.items.take (min R dl.length))

/-- The loop state after executing `k` of the outer-loop iterations of a
traversal started at state `c`: a prefix run of the same loop. -/
def midState {α : Type} (c : CachedDataLoader α) (k : Nat) : IterResult α :=
  iterLoop c.num_batches c.dataloader.items k c.outputs c.curr_index

/-- A well-behaved concrete source: reported length `6`, six proper
samples, no extra attributes. -/
def exLoader6 : DataLoader Nat :=
  { length := 6
    items := [some 10, some 11, some 12, some 13, some 14, some 15]
    attrs := fun _ => none }

/-- A misbehaving concrete source: reported length `10` but its fresh
iterator produces only `2` samples. -/
def exLoaderShort : DataLoader Nat :=
  { length := 10
    items := [some 1, some 2]
    attrs := fun _ => none }

/-- A concrete source whose fresh iterator yields the Python value `None`
as its third sample. -/
def exLoaderNone : DataLoader Nat :=
  { length := 10
    items := [some 1, some 2, none, some 4, some 5]
    attrs := fun _ => none }

/-- A concrete source of reported length `0`. -/
def exLoaderEmpty : DataLoader Nat :=
  { length := 0
    items := []
    attrs := fun _ => none }

/-- A concrete source carrying an extra attribute `foo` of value `42`. -/
def exLoaderFoo : DataLoader Nat :=
  { length := 3
    items := [some 1, some 2, some 3]
    attrs := fun k => if k = ("foo" : String) then some 42 else none }

/-- When the fresh iterator produces at least `n` non-`None` samples, the
population loop appends exactly the first `n` samples, the early `return`
does not fire, and exactly `n` `next` calls are made. -/
lemma pullBatches_good {α : Type} :
    ∀ (n : Nat) (items : List (Option α)), goodFirst items n = true →
      pullBatches items n = (List.filterMap id (items.take n), false, n)
  | 0, items, _ => by simp [pullBatches]
  | Nat.succ n, [], h => by simp [goodFirst] at h
  | Nat.succ n, none :: rest, h => by simp [goodFirst] at h
  | Nat.succ n, some x :: rest, h => by
    have hr : goodFirst rest n = true := by
      simp only [goodFirst, List.take_succ_cons, List.all_cons, Option.isSome_some,
        Bool.true_and, Bool.and_eq_true, decide_eq_true_eq, List.length_cons] at h ⊢
      exact ⟨by omega, h.2⟩
    simp [pullBatches, pullBatches_good n rest hr]

/-- Under the same hypothesis the populated cache has exactly `n` items. -/
lemma filterMap_take_length {α : Type} :
    ∀ (n : Nat) (items : List (Option α)), goodFirst items n = true →
      (List.filterMap id (items.take n)).length = n
  | 0, items, _ => by simp
  | Nat.succ n, [], h => by simp [goodFirst] at h
  | Nat.succ n, none :: rest, h => by simp [goodFirst] at h
  | Nat.succ n, some x :: rest, h => by
    have hr : goodFirst rest n = true := by
      simp only [goodFirst, List.take_succ_cons, List.all_cons, Option.isSome_some,
        Bool.true_and, Bool.and_eq_true, decide_eq_true_eq, List.length_cons] at h ⊢
      exact ⟨by omega, h.2⟩
    simp [filterMap_take_length n rest hr]

/-- When the `(j+1)`-th `next` call returns `None` — because the iterator
is exhausted after `j` samples or because the `j`-th sample is the Python
value `None` — and the first `j` samples are proper, the population loop
stops with the early `return` after `j + 1` `next` calls, keeping only the
first `j` samples. -/
lemma pullBatches_stop {α : Type} :
    ∀ (j n : Nat) (items : List (Option α)), j < n →
      (items.take j).all Option.isSome = true →
      (items.get? j = some none ∨ items.length = j) →
      pullBatches items n = (List.filterMap id (items.take j), true, j + 1)
  | 0, n, items, hj, _, hstop => by
    obtain ⟨m, rfl⟩ : ∃ m, n = m + 1 := ⟨n - 1, by omega⟩
    rcases hstop with h | h
    · match items, h with
      | none :: rest, _ => simp [pullBatches]
    · match items, List.length_eq_zero.1 h with
      | _, rfl => simp [pullBatches]
  | Nat.succ j, n, items, hj, hall, hstop => by
    obtain ⟨m, rfl⟩ : ∃ m, n = m + 1 := ⟨n - 1, by omega⟩
    match items with
    | [] =>
      rcases hstop with h | h
      · simp at h
      · simp at h
    | none :: rest => simp at hall
    | some x :: rest =>
      have hstop' : rest.get? j = some none ∨ rest.length = j := by
        rcases hstop with h | h
        · exact Or.inl (by simpa using h)
        · exact Or.inr (by simpa using h)
      have hall' : (rest.take j).all Option.isSome = true := by
        simpa using hall
      simp [pullBatches, pullBatches_stop j m rest (by omega) hall' hstop']

/-- Steady state: once `_outputs` holds a list of exactly `_num_batches`
items and the cursor is in range, running `n` iterations of the loop
yields the cached items in round-robin order from the cursor, leaves the
cache untouched, advances the cursor by `n` modulo `_num_batches`,
completes normally, and makes no `next` call on the real source. -/
lemma iterLoop_steady {α : Type} (nb : Nat) (items : List (Option α))
    (l : List α) (hnb : 1 ≤ nb) (hl : l.length = nb) (n : Nat) :
    ∀ (cur : Nat), cur < nb →
      (iterLoop nb items n (some l) cur).yielded.length = n ∧
      (∀ k, k < n → (iterLoop nb items n (some l) cur).yielded.get? k
          = l.get? ((cur + k) % nb)) ∧
      (iterLoop nb items n (some l) cur).outputs = some l ∧
      (iterLoop nb items n (some l) cur).curr_index = (cur + n) % nb ∧
      (iterLoop nb items n (some l) cur).outcome = RunOutcome.completed ∧
      (iterLoop nb items n (some l) cur).pulls = 0 := by
  induction n with
  | zero =>
    intro cur hcur
    refine ⟨rfl, ?_, rfl, ?_, rfl, rfl⟩
    · intro k hk; exact absurd hk (Nat.not_lt_zero k)
    · simp [iterLoop, Nat.mod_eq_of_lt hcur]
  | succ n ih =>
    intro cur hcur
    have hx : l.get? cur = some (l.get ⟨cur, by omega⟩) :=
      List.get?_eq_get (by omega)
    have hcur' : (cur + 1) % nb < nb := Nat.mod_lt _ hnb
    obtain ⟨ihlen, ihget, ihout, ihcur, ihoc, ihp⟩ := ih ((cur + 1) % nb) hcur'
    simp only [iterLoop, hx]
    refine ⟨by simp [ihlen], ?_, ihout, ?_, ihoc, ihp⟩
    · intro k hk
      match k with
      | 0 =>
        simp only [List.get?_cons_zero, Nat.add_zero, Nat.mod_eq_of_lt hcur]
        exact hx.symm
      | Nat.succ k =>
        have h1 := ihget k (by omega)
        have h2 : ((cur + 1) % nb + k) % nb = (cur + (k + 1)) % nb := by
          rw [Nat.mod_add_mod]; congr 1; omega
        simpa [h2] using h1
    · rw [ihcur, Nat.mod_add_mod]; congr 1; omega

/-- First-time population, good case: from `_outputs = None` and
`_curr_index = 0`, with `nb ≥ 1`, `fuel ≥ 1` loop iterations and a source
whose fresh iterator produces at least `nb` proper samples, the loop
populates the cache with the first `nb` samples, pulls exactly `nb`
times, yields `fuel` items in round-robin order from cache index `0`, and
leaves the cursor at `fuel % nb`. -/
lemma iterLoop_populate_good {α : Type} (nb : Nat) (items : List (Option α))
    (hnb : 1 ≤ nb) (hg : goodFirst items nb = true) (fuel : Nat)
    (hfuel : 1 ≤ fuel) :
    (iterLoop nb items fuel none 0).yielded.length = fuel ∧
    (∀ k, k < fuel → (iterLoop nb items fuel none 0).yielded.get? k
        = (List.filterMap id (items.take nb)).get? (k % nb)) ∧
    (iterLoop nb items fuel none 0).outputs
      = some (List.filterMap id (items.take nb)) ∧
    (iterLoop nb items fuel none 0).curr_index = fuel % nb ∧
    (iterLoop nb items fuel none 0).outcome = RunOutcome.completed ∧
    (iterLoop nb items fuel none 0).pulls = nb := by
  obtain ⟨f, rfl⟩ : ∃ f, fuel = f + 1 := ⟨fuel - 1, by omega⟩
  have hclen : (List.filterMap id (items.take nb)).length = nb :=
    filterMap_take_length _ _ hg
  have hpull : pullBatches items nb
      = (List.filterMap id (items.take nb), false, nb) :=
    pullBatches_good _ _ hg
  have hx : (List.filterMap id (items.take nb)).get? 0
      = some ((List.filterMap id (items.take nb)).get ⟨0, by omega⟩) :=
    List.get?_eq_get (by omega)
  have hcur' : 1 % nb < nb := Nat.mod_lt _ hnb
  obtain ⟨slen, sget, sout, scur, soc, sp⟩ :=
    iterLoop_steady nb items (List.filterMap id (items.take nb)) hnb hclen f
      (1 % nb) hcur'
  simp only [iterLoop, hpull, Bool.false_eq_true, if_false, hx]
  refine ⟨by simp [slen], ?_, sout, ?_, soc, by simp [sp]⟩
  · intro k hk
    match k with
    | 0 =>
      simp only [List.get?_cons_zero, Nat.zero_mod]
      exact hx.symm
    | Nat.succ k =>
      have h1 := sget k (by omega)
      have h2 : (1 % nb + k) % nb = (k + 1) % nb := by
        rw [Nat.mod_add_mod]; congr 1; omega
      simpa [h2] using h1
  · rw [scur, Nat.mod_add_mod]; congr 1; omega

/-- The first traversal of a freshly constructed adapter, good case:
specialization of `iterLoop_populate_good` to the state `__init__`
builds, with the cache written as `cacheOf dl R`. -/
lemma iterate_construct_good {α : Type} (dl : DataLoader α) (R : Nat)
    (hR : 1 ≤ R) (hL : 1 ≤ dl.length)
    (hg : goodFirst dl.items (min R dl.length) = true) :
    ((CachedDataLoader.construct dl none R).iterate).yielded.length = dl.length ∧
    (∀ k, k < dl.length →
      ((CachedDataLoader.construct dl none R).iterate).yielded.get? k
        = (cacheOf dl R).get? (k % min R dl.length)) ∧
    ((CachedDataLoader.construct dl none R).iterate).outputs = some (cacheOf dl R) ∧
    ((CachedDataLoader.construct dl none R).iterate).curr_index
      = dl.length % min R dl.length ∧
    ((CachedDataLoader.construct dl none R).iterate).outcome = RunOutcome.completed ∧
    ((CachedDataLoader.construct dl none R).iterate).pulls = min R dl.length := by
  have hnb : 1 ≤ min R dl.length := by omega
  have hrun : (CachedDataLoader.construct dl none R).iterate
      = iterLoop (min R dl.length) dl.items dl.length none 0 := rfl
  have hcache : cacheOf dl R
      = List.filterMap id (dl.items.take (min R dl.length)) := rfl
  rw [hrun, hcache]
  exact iterLoop_populate_good (min R dl.length) dl.items hnb hg dl.length hL

/-- Once `_outputs` holds a list it is never replaced: any run of the
loop keeps exactly the same cache and makes no `next` call on the real
source. -/
lemma iterLoop_some_state {α : Type} (nb : Nat) (items : List (Option α)) :
    ∀ (n : Nat) (l : List α) (cur : Nat),
      (iterLoop nb items n (some l) cur).outputs = some l ∧
      (iterLoop nb items n (some l) cur).pulls = 0
  | 0, l, cur => ⟨rfl, rfl⟩
  | Nat.succ n, l, cur => by
    obtain ⟨h1, h2⟩ := iterLoop_some_state nb items n l ((cur + 1) % nb)
    simp only [iterLoop]
    cases hx : l.get? cur with
    | none => exact ⟨rfl, rfl⟩
    | some x => exact ⟨h1, h2⟩

/-- Any run of at least one loop iteration from `_outputs = None` leaves
`_outputs` holding a list (population happens in every branch). -/
lemma iterLoop_none_populates {α : Type} (nb : Nat) (items : List (Option α))
    (n cur : Nat) :
    ∃ l, (iterLoop nb items (n + 1) none cur).outputs = some l := by
  simp only [iterLoop]
  by_cases hp : (pullBatches items nb).2.1 = true
  · rw [if_pos hp]
    exact ⟨_, rfl⟩
  · rw [if_neg hp]
    cases hx : (pullBatches items nb).1.get? cur with
    | none => exact ⟨_, rfl⟩
    | some x =>
      obtain ⟨h1, _⟩ :=
        iterLoop_some_state nb items n (pullBatches items nb).1 ((cur + 1) % nb)
      exact ⟨_, h1⟩

/-- `afterIterate` touches only `_outputs` and `_curr_index`: the wrapped
loader and the clamped cache size survive any number of traversals. -/
lemma runTraversals_fields {α : Type} (c : CachedDataLoader α) :
    ∀ t, (runTraversals c t).dataloader = c.dataloader ∧
      (runTraversals c t).num_batches = c.num_batches
  | 0 => ⟨rfl, rfl⟩
  | Nat.succ t => by
    obtain ⟨h1, h2⟩ := runTraversals_fields c t
    simp [runTraversals, CachedDataLoader.afterIterate, h1, h2]

/-- Good case: after every completed traversal (one or more), the state
holds exactly the cache `cacheOf dl R` and an in-range cursor. -/
lemma runTraversals_good {α : Type} (dl : DataLoader α) (R : Nat)
    (hR : 1 ≤ R) (hL : 1 ≤ dl.length)
    (hg : goodFirst dl.items (min R dl.length) = true) :
    ∀ t, 1 ≤ t →
      (runTraversals (CachedDataLoader.construct dl none R) t).outputs
        = some (cacheOf dl R) ∧
      (runTraversals (CachedDataLoader.construct dl none R) t).curr_index
        < min R dl.length := by
  have hnb : 1 ≤ min R dl.length := by omega
  have hclen : (cacheOf dl R).length = min R dl.length :=
    filterMap_take_length _ _ hg
  intro t
  induction t with
  | zero => intro h; omega
  | succ t ih =>
    intro _
    by_cases ht : t = 0
    · subst ht
      obtain ⟨_, _, hout, hcur, _, _⟩ := iterate_construct_good dl R hR hL hg
      refine ⟨?_, ?_⟩
      · show ((CachedDataLoader.construct dl none R).afterIterate).outputs = _
        simpa [CachedDataLoader.afterIterate] using hout
      · show ((CachedDataLoader.construct dl none R).afterIterate).curr_index < _
        simp only [CachedDataLoader.afterIterate]
        rw [hcur]
        exact Nat.mod_lt _ hnb
    · obtain ⟨hout, hcur⟩ := ih (by omega)
      obtain ⟨hdl, hnbf⟩ :=
        runTraversals_fields (CachedDataLoader.construct dl none R) t
      have hiter : (runTraversals (CachedDataLoader.construct dl none R) t).iterate
          = iterLoop (min R dl.length) dl.items dl.length
              (some (cacheOf dl R))
              (runTraversals (CachedDataLoader.construct dl none R) t).curr_index := by
        unfold CachedDataLoader.iterate CachedDataLoader.len
        rw [hdl, hnbf, hout]
        rfl
      obtain ⟨_, _, sout, scur, _, _⟩ :=
        iterLoop_steady (min R dl.length) dl.items (cacheOf dl R) hnb hclen
          dl.length _ hcur
      refine ⟨?_, ?_⟩
      · show ((runTraversals (CachedDataLoader.construct dl none R) t).afterIterate).outputs = _
        simp only [CachedDataLoader.afterIterate]
        rw [hiter]
        exact sout
      · show ((runTraversals (CachedDataLoader.construct dl none R) t).afterIterate).curr_index < _
        simp only [CachedDataLoader.afterIterate]
        rw [hiter, scur]
        exact Nat.mod_lt _ hnb

/-- Good case, main workhorse: the traversal started from the state after
any number `t` of prior traversals yields exactly `len(dl)` items, the
`k`-th being the cache entry at `(cursor + k) % min(R, len(dl))` for the
cursor held at traversal start; it completes normally and pulls from the
real source only when `t = 0` (exactly `min(R, len(dl))` times then). -/
lemma iterate_good_at {α : Type} (dl : DataLoader α) (R : Nat)
    (hR : 1 ≤ R) (hL : 1 ≤ dl.length)
    (hg : goodFirst dl.items (min R dl.length) = true) (t : Nat) :
    ((runTraversals (CachedDataLoader.construct dl none R) t).iterate).yielded.length
      = dl.length ∧
    (∀ k, k < dl.length →
      ((runTraversals (CachedDataLoader.construct dl none R) t).iterate).yielded.get? k
        = (cacheOf dl R).get?
            (((runTraversals (CachedDataLoader.construct dl none R) t).curr_index + k)
              % min R dl.length)) ∧
    ((runTraversals (CachedDataLoader.construct dl none R) t).iterate).outcome
      = RunOutcome.completed ∧
    ((runTraversals (CachedDataLoader.construct dl none R) t).iterate).pulls
      = (if t = 0 then min R dl.length else 0) := by
  have hnb : 1 ≤ min R dl.length := by omega
  have hclen : (cacheOf dl R).length = min R dl.length :=
    filterMap_take_length _ _ hg
  by_cases ht : t = 0
  · subst ht
    obtain ⟨hlen, hget, _, _, hoc, hp⟩ := iterate_construct_good dl R hR hL hg
    refine ⟨hlen, ?_, hoc, by simpa using hp⟩
    intro k hk
    have hcur0 : (runTraversals (CachedDataLoader.construct dl none R) 0).curr_index
        = 0 := rfl
    rw [hcur0, Nat.zero_add]
    exact hget k hk
  · obtain ⟨hout, hcur⟩ := runTraversals_good dl R hR hL hg t (by omega)
    obtain ⟨hdl, hnbf⟩ :=
      runTraversals_fields (CachedDataLoader.construct dl none R) t
    have hiter : (runTraversals (CachedDataLoader.construct dl none R) t).iterate
        = iterLoop (min R dl.length) dl.items dl.length
            (some (cacheOf dl R))
            (runTraversals (CachedDataLoader.construct dl none R) t).curr_index := by
      unfold CachedDataLoader.iterate CachedDataLoader.len
      rw [hdl, hnbf, hout]
      rfl
    obtain ⟨slen, sget, _, _, soc, sp⟩ :=
      iterLoop_steady (min R dl.length) dl.items (cacheOf dl R) hnb hclen
        dl.length _ hcur
    rw [hiter]
    exact ⟨slen, sget, soc, by simpa [ht] using sp⟩

/-- General invariant of the loop, with no assumption on the source: from
a state whose cursor is `0` while unpopulated and in `[0, nb)` once
populated (`nb ≥ 1`), after any number of iterations (i) the cursor is in
`[0, nb)` whenever `_outputs` holds a list, (ii) an existing cache is
never replaced, and (iii) if `_outputs` is still `None` then nothing ran:
the cursor is still `0` and the start state was unpopulated. -/
lemma iterLoop_cursor_inv {α : Type} (nb : Nat) (items : List (Option α))
    (hnb : 1 ≤ nb) :
    ∀ (n : Nat) (outs : Option (List α)) (cur : Nat),
      (outs = none → cur = 0) →
      (∀ l, outs = some l → cur < nb) →
      (∀ l, (iterLoop nb items n outs cur).outputs = some l →
        (iterLoop nb items n outs cur).curr_index < nb) ∧
      (∀ l, outs = some l → (iterLoop nb items n outs cur).outputs = some l) ∧
      ((iterLoop nb items n outs cur).outputs = none →
        (iterLoop nb items n outs cur).curr_index = 0 ∧ outs = none) := by
  intro n
  induction n with
  | zero =>
    intro outs cur h1 h2
    exact ⟨fun l hl => h2 l hl, fun l hl => hl, fun hl => ⟨h1 hl, hl⟩⟩
  | succ n ih =>
    intro outs cur h1 h2
    match outs with
    | none =>
      have hcur0 : cur = 0 := h1 rfl
      subst hcur0
      simp only [iterLoop]
      by_cases hp : (pullBatches items nb).2.1 = true
      · rw [if_pos hp]
        exact ⟨fun l _ => hnb, fun l hl => by simp at hl, fun hl => by simp at hl⟩
      · rw [if_neg hp]
        cases hx : (pullBatches items nb).1.get? 0 with
        | none =>
          exact ⟨fun l _ => hnb, fun l hl => by simp at hl, fun hl => by simp at hl⟩
        | some x =>
          obtain ⟨c1, c2, c3⟩ := ih (some (pullBatches items nb).1) ((0 + 1) % nb)
            (fun h => by simp at h)
            (fun l _ => Nat.mod_lt _ hnb)
          refine ⟨c1, fun l hl => by simp at hl, fun hl => ?_⟩
          obtain ⟨_, habs⟩ := c3 hl
          simp at habs
    | some l0 =>
      have hcur : cur < nb := h2 l0 rfl
      simp only [iterLoop]
      cases hx : l0.get? cur with
      | none =>
        refine ⟨fun l _ => hcur, fun l hl => hl, fun hl => by simp at hl⟩
      | some x =>
        obtain ⟨c1, c2, c3⟩ := ih (some l0) ((cur + 1) % nb)
          (fun h => by simp at h)
          (fun l hl => Nat.mod_lt _ hnb)
        refine ⟨c1, fun l hl => ?_, fun hl => ?_⟩
        · obtain rfl : l0 = l := by injection hl
          exact c2 l0 rfl
        · obtain ⟨_, habs⟩ := c3 hl
          simp at habs

/-- Early-stop population: if the `(j+1)`-th `next` call on the fresh
iterator returns `None` while the first `j` samples are proper and
`j < nb`, then a traversal from the unpopulated state ends at once with
the early `return`: nothing is yielded, `_outputs` keeps exactly the
first `j` samples, the cursor is untouched and `j + 1` `next` calls were
made. -/
lemma iterLoop_populate_stop {α : Type} (nb : Nat) (items : List (Option α))
    (j : Nat) (hj : j < nb)
    (hall : (items.take j).all Option.isSome = true)
    (hstop : items.get? j = some none ∨ items.length = j)
    (fuel cur : Nat) (hfuel : 1 ≤ fuel) :
    iterLoop nb items fuel none cur =
      ⟨[], some (List.filterMap id (items.take j)), cur,
        RunOutcome.earlyReturn, j + 1⟩ := by
  obtain ⟨f, rfl⟩ : ∃ f, fuel = f + 1 := ⟨fuel - 1, by omega⟩
  have hp := pullBatches_stop j nb items hj hall hstop
  simp [iterLoop, hp]

/-- A traversal started while the wrapped loader reports length `0` runs
the outer loop zero times: it yields nothing, completes normally, pulls
nothing and leaves the fields unchanged. -/
lemma iterate_len_zero {α : Type} (c : CachedDataLoader α)
    (h : c.dataloader.length = 0) :
    c.iterate = ⟨[], c.outputs, c.curr_index, RunOutcome.completed, 0⟩ := by
  unfold CachedDataLoader.iterate CachedDataLoader.len
  rw [h]
  simp [iterLoop]

/-- With a positive requested cache size, every state reached by whole
traversals has its cursor at `0` while unpopulated and in
`[0, _num_batches)` once populated — for every source, also a
misbehaving one. -/
lemma runTraversals_WF {α : Type} (dl : DataLoader α) (dev : Option Unit)
    (R : Nat) (hR : 1 ≤ R) :
    ∀ t,
      ((runTraversals (CachedDataLoader.construct dl dev R) t).outputs = none →
        (runTraversals (CachedDataLoader.construct dl dev R) t).curr_index = 0) ∧
      (∀ l, (runTraversals (CachedDataLoader.construct dl dev R) t).outputs = some l →
        (runTraversals (CachedDataLoader.construct dl dev R) t).curr_index
          < (runTraversals (CachedDataLoader.construct dl dev R) t).num_batches) := by
  intro t
  induction t with
  | zero => exact ⟨fun _ => rfl, fun l hl => by simp [CachedDataLoader.construct, runTraversals] at hl⟩
  | succ t ih =>
    obtain ⟨ih1, ih2⟩ := ih
    by_cases hL : 1 ≤ dl.length
    · have hnb : 1 ≤ (runTraversals (CachedDataLoader.construct dl dev R) t).num_batches := by
        rw [(runTraversals_fields _ t).2]
        show 1 ≤ min R dl.length
        omega
      obtain ⟨c1, c2, c3⟩ :=
        iterLoop_cursor_inv
          (runTraversals (CachedDataLoader.construct dl dev R) t).num_batches
          (runTraversals (CachedDataLoader.construct dl dev R) t).dataloader.items
          hnb
          (runTraversals (CachedDataLoader.construct dl dev R) t).len
          (runTraversals (CachedDataLoader.construct dl dev R) t).outputs
          (runTraversals (CachedDataLoader.construct dl dev R) t).curr_index
          ih1 ih2
      exact ⟨fun hl => (c3 hl).1, c1⟩
    · have h0 : (runTraversals (CachedDataLoader.construct dl dev R) t).dataloader.length = 0 := by
        rw [(runTraversals_fields _ t).1]
        show dl.length = 0
        omega
      have hz := iterate_len_zero _ h0
      refine ⟨?_, ?_⟩
      · show ((runTraversals (CachedDataLoader.construct dl dev R) t).afterIterate).outputs = none →
            ((runTraversals (CachedDataLoader.construct dl dev R) t).afterIterate).curr_index = 0
        simp only [CachedDataLoader.afterIterate, hz]
        exact ih1
      · intro l
        show ((runTraversals (CachedDataLoader.construct dl dev R) t).afterIterate).outputs = some l →
            ((runTraversals (CachedDataLoader.construct dl dev R) t).afterIterate).curr_index
              < ((runTraversals (CachedDataLoader.construct dl dev R) t).afterIterate).num_batches
        simp only [CachedDataLoader.afterIterate, hz]
        exact ih2 l

/-- C5: for every source of length `L` and every requested cache size `R`
(and any device argument), the adapter's reported length equals `L` — the
wrapped source's length, unchanged — and the effective cache size stored
at construction equals `min(R, L)`. -/
theorem c5_length_and_cache_size {α : Type} (dl : DataLoader α)
    (dev : Option Unit) (R : Nat) :
    (CachedDataLoader.construct dl dev R).len = dl.length ∧
    (CachedDataLoader.construct dl dev R).num_batches = min R dl.length :=
  ⟨rfl, rfl⟩

/-- C1: for every source of reported length `L ≥ 1` whose fresh iterator
produces at least `min(R, L)` proper samples (`R` the requested cache
size, positive per the construction contract), every traversal — the one
started after any number `t` of prior traversals — yields exactly `L`
items, and the `k`-th yielded item (0-indexed) is the cache entry at
`(c + k) % C`, where `c` is the cursor position held at traversal start
and `C = min(R, L)`. -/
theorem c1_round_robin_traversal {α : Type} (dl : DataLoader α) (R t : Nat)
    (hR : 1 ≤ R) (hL : 1 ≤ dl.length)
    (hg : goodFirst dl.items (min R dl.length) = true) :
    ((runTraversals (CachedDataLoader.construct dl none R) t).iterate).yielded.length
      = dl.length ∧
    ∀ k, k < dl.length →
      ((runTraversals (CachedDataLoader.construct dl none R) t).iterate).yielded.get? k
        = (cacheOf dl R).get?
            (((runTraversals (CachedDataLoader.construct dl none R) t).curr_index + k)
              % min R dl.length) := by
  obtain ⟨h1, h2, _, _⟩ := iterate_good_at dl R hR hL hg t
  exact ⟨h1, h2⟩

theorem c1_round_robin_traversal_witness :
    (1 ≤ (4 : Nat) ∧ 1 ≤ exLoader6.length ∧
      goodFirst exLoader6.items (min 4 exLoader6.length) = true) ∧
    (((runTraversals (CachedDataLoader.construct exLoader6 none 4) 1).iterate).yielded.length
        = exLoader6.length ∧
      ∀ k, k < exLoader6.length →
        ((runTraversals (CachedDataLoader.construct exLoader6 none 4) 1).iterate).yielded.get? k
          = (cacheOf exLoader6 4).get?
              (((runTraversals (CachedDataLoader.construct exLoader6 none 4) 1).curr_index + k)
                % min 4 exLoader6.length)) :=
  ⟨⟨by decide, by decide, by decide⟩,
    c1_round_robin_traversal exLoader6 4 1 (by decide) (by decide) (by decide)⟩

/-- C8: for a source of reported length `0`, every traversal of the
adapter yields no items and raises no error (the outer loop runs zero
times, so the cursor-advance step with modulus `min(R, 0) = 0` is never
reached). -/
theorem c8_zero_length_source {α : Type} (dl : DataLoader α) (R t : Nat)
    (h : dl.length = 0) :
    ((runTraversals (CachedDataLoader.construct dl none R) t).iterate).yielded = [] ∧
    ((runTraversals (CachedDataLoader.construct dl none R) t).iterate).outcome
      = RunOutcome.completed := by
  have h0 : (runTraversals (CachedDataLoader.construct dl none R) t).dataloader.length = 0 := by
    rw [(runTraversals_fields _ t).1]
    exact h
  rw [iterate_len_zero _ h0]
  exact ⟨rfl, rfl⟩

theorem c8_zero_length_source_witness :
    exLoaderEmpty.length = 0 ∧
    (((runTraversals (CachedDataLoader.construct exLoaderEmpty none 4) 1).iterate).yielded = [] ∧
      ((runTraversals (CachedDataLoader.construct exLoaderEmpty none 4) 1).iterate).outcome
        = RunOutcome.completed) :=
  ⟨by decide, c8_zero_length_source exLoaderEmpty 4 1 (by decide)⟩

/-- C9: for every attribute name that is not one of the adapter's own
members, attribute access on the adapter returns the same value as
attribute access on the wrapped source (transparent delegation through
`__getattr__`). -/
theorem c9_attribute_delegation {α : Type} (c : CachedDataLoader α)
    (key : String) (h : key ∉ CachedDataLoader.ownMembers) :
    attrAccess c key = c.dataloader.attrs key := by
  simp [attrAccess, CachedDataLoader.getattr, h]

theorem c9_attribute_delegation_witness :
    (("foo" : String) ∉ CachedDataLoader.ownMembers ∧
      exLoaderFoo.attrs ("foo") = some 42) ∧
    attrAccess (CachedDataLoader.construct exLoaderFoo none 4) ("foo")
      = (CachedDataLoader.construct exLoaderFoo none 4).dataloader.attrs ("foo") :=
  ⟨⟨by decide, by decide⟩,
    c9_attribute_delegation (CachedDataLoader.construct exLoaderFoo none 4)
      ("foo") (by decide)⟩

/-- C2, counterexample: for the source reporting length `10` that can
produce only `2` items, with requested cache size `5`, the first
traversal yields zero items — not the `2` items the claim states — since
the early `return` fires inside the population block before the first
yield is reached. -/
theorem c2_counterexample :
    ((CachedDataLoader.construct exLoaderShort none 5).iterate).yielded = ([] : List Nat) ∧
    ((CachedDataLoader.construct exLoaderShort none 5).iterate).yielded.length ≠ 2 :=
  ⟨rfl, by decide⟩

/-- C2, amended: when the fresh iterator is exhausted after
`k < effective_cache_size` items during first population, that traversal
terminates immediately with zero items yielded (the `k` pulled items stay
in the cache, and `k + 1` `next` calls were made), with no error raised
on that traversal. -/
theorem c2_early_exhaustion_amended {α : Type} (dl : DataLoader α) (R : Nat)
    (hL : 1 ≤ dl.length)
    (hall : dl.items.all Option.isSome = true)
    (hshort : dl.items.length < min R dl.length) :
    ((CachedDataLoader.construct dl none R).iterate).yielded = [] ∧
    ((CachedDataLoader.construct dl none R).iterate).outcome
      = RunOutcome.earlyReturn ∧
    ((CachedDataLoader.construct dl none R).iterate).outputs
      = some (List.filterMap id dl.items) ∧
    ((CachedDataLoader.construct dl none R).iterate).pulls
      = dl.items.length + 1 := by
  have htake : dl.items.take dl.items.length = dl.items := List.take_length dl.items
  have hrun : (CachedDataLoader.construct dl none R).iterate
      = iterLoop (min R dl.length) dl.items dl.length none 0 := rfl
  rw [hrun, iterLoop_populate_stop (min R dl.length) dl.items dl.items.length
    hshort (by rw [htake]; exact hall) (Or.inr rfl) dl.length 0 hL, htake]
  exact ⟨rfl, rfl, rfl, rfl⟩

theorem c2_early_exhaustion_amended_witness :
    (1 ≤ exLoaderShort.length ∧ exLoaderShort.items.all Option.isSome = true ∧
      exLoaderShort.items.length < min 5 exLoaderShort.length) ∧
    (((CachedDataLoader.construct exLoaderShort none 5).iterate).yielded = [] ∧
      ((CachedDataLoader.construct exLoaderShort none 5).iterate).outcome
        = RunOutcome.earlyReturn ∧
      ((CachedDataLoader.construct exLoaderShort none 5).iterate).outputs
        = some (List.filterMap id exLoaderShort.items) ∧
      ((CachedDataLoader.construct exLoaderShort none 5).iterate).pulls
        = exLoaderShort.items.length + 1) :=
  ⟨⟨by decide, by decide, by decide⟩,
    c2_early_exhaustion_amended exLoaderShort 5 (by decide) (by decide) (by decide)⟩

/-- C10: if the `j`-th sample (0-indexed, `j < min(R, L)`) produced by the
source's fresh iterator is itself the Python value `None`, the adapter
treats it as source exhaustion: population stops without appending it
(the cache keeps exactly the `j` earlier samples), the first traversal
terminates immediately with nothing yielded, and only `j + 1` `next`
calls were made — indistinguishable from early exhaustion at the
adapter's interface. -/
theorem c10_none_sample_is_exhaustion {α : Type} (dl : DataLoader α)
    (R j : Nat) (hL : 1 ≤ dl.length) (hj : j < min R dl.length)
    (hall : (dl.items.take j).all Option.isSome = true)
    (hnone : dl.items.get? j = some none) :
    ((CachedDataLoader.construct dl none R).iterate).yielded = [] ∧
    ((CachedDataLoader.construct dl none R).iterate).outcome
      = RunOutcome.earlyReturn ∧
    ((CachedDataLoader.construct dl none R).iterate).outputs
      = some (List.filterMap id (dl.items.take j)) ∧
    (List.filterMap id (dl.items.take j)).length = j ∧
    ((CachedDataLoader.construct dl none R).iterate).pulls = j + 1 := by
  have hrun : (CachedDataLoader.construct dl none R).iterate
      = iterLoop (min R dl.length) dl.items dl.length none 0 := rfl
  rw [hrun, iterLoop_populate_stop (min R dl.length) dl.items j hj hall
    (Or.inl hnone) dl.length 0 hL]
  refine ⟨rfl, rfl, rfl, ?_, rfl⟩
  have hjlen : j ≤ dl.items.length := by
    by_contra hc
    have hno : dl.items.get? j = none := List.get?_eq_none.2 (by omega)
    rw [hno] at hnone
    exact Option.noConfusion hnone
  exact filterMap_take_length j dl.items (by simp [goodFirst, hall, hjlen])

theorem c10_none_sample_is_exhaustion_witness :
    (1 ≤ exLoaderNone.length ∧ 2 < min 5 exLoaderNone.length ∧
      (exLoaderNone.items.take 2).all Option.isSome = true ∧
      exLoaderNone.items.get? 2 = some none) ∧
    (((CachedDataLoader.construct exLoaderNone none 5).iterate).yielded = [] ∧
      ((CachedDataLoader.construct exLoaderNone none 5).iterate).outcome
        = RunOutcome.earlyReturn ∧
      ((CachedDataLoader.construct exLoaderNone none 5).iterate).outputs
        = some (List.filterMap id (exLoaderNone.items.take 2)) ∧
      (List.filterMap id (exLoaderNone.items.take 2)).length = 2 ∧
      ((CachedDataLoader.construct exLoaderNone none 5).iterate).pulls = 2 + 1) :=
  ⟨⟨by decide, by decide, by decide, by decide⟩,
    c10_none_sample_is_exhaustion exLoaderNone 5 2 (by decide) (by decide)
      (by decide) (by decide)⟩

/-- C3, counterexample: after the first traversal of the short source
(reported length `10`, only `2` producible items, requested cache size
`5`) terminated early, the next traversal raises an IndexError once the
cursor reaches the missing cache index — refuting the claim that
subsequent traversals also do not raise. -/
theorem c3_counterexample :
    ((runTraversals (CachedDataLoader.construct exLoaderShort none 5) 1).iterate).outcome
      = RunOutcome.indexError := by
  decide

/-- C3, amended: the adapter raises no error on any traversal provided
the source's fresh iterator produces at least `min(R, L)` proper samples
(`R ≥ 1` the requested cache size) — in particular for any accurate
source, and vacuously for `L = 0`; after an early exhaustion during
first-time population, however, a later traversal can raise an index
error. -/
theorem c3_no_error_amended {α : Type} (dl : DataLoader α) (R t : Nat)
    (hR : 1 ≤ R) (hg : goodFirst dl.items (min R dl.length) = true) :
    ((runTraversals (CachedDataLoader.construct dl none R) t).iterate).outcome
      = RunOutcome.completed := by
  by_cases hL : 1 ≤ dl.length
  · exact (iterate_good_at dl R hR hL hg t).2.2.1
  · have h0 : (runTraversals (CachedDataLoader.construct dl none R) t).dataloader.length = 0 := by
      rw [(runTraversals_fields _ t).1]
      show dl.length = 0
      omega
    rw [iterate_len_zero _ h0]

theorem c3_no_error_amended_witness :
    (1 ≤ (4 : Nat) ∧ goodFirst exLoader6.items (min 4 exLoader6.length) = true) ∧
    ((runTraversals (CachedDataLoader.construct exLoader6 none 4) 2).iterate).outcome
      = RunOutcome.completed :=
  ⟨⟨by decide, by decide⟩,
    c3_no_error_amended exLoader6 4 2 (by decide) (by decide)⟩

/-- C4: for every source of length `L ≥ 1` that can produce at least
`min(R, L)` proper samples (`R` positive per the construction contract),
exactly `min(R, L)` items are pulled from the real source during the
first traversal, and every traversal after the first pulls zero
additional items from the real source. -/
theorem c4_source_pull_counts {α : Type} (dl : DataLoader α) (R : Nat)
    (hR : 1 ≤ R) (hL : 1 ≤ dl.length)
    (hg : goodFirst dl.items (min R dl.length) = true) :
    ((CachedDataLoader.construct dl none R).iterate).pulls = min R dl.length ∧
    ∀ t, 1 ≤ t →
      ((runTraversals (CachedDataLoader.construct dl none R) t).iterate).pulls = 0 := by
  constructor
  · exact (iterate_construct_good dl R hR hL hg).2.2.2.2.2
  · intro t ht
    have h := (iterate_good_at dl R hR hL hg t).2.2.2
    rw [if_neg (by omega : ¬t = 0)] at h
    exact h

theorem c4_source_pull_counts_witness :
    (1 ≤ (4 : Nat) ∧ 1 ≤ exLoader6.length ∧
      goodFirst exLoader6.items (min 4 exLoader6.length) = true) ∧
    (((CachedDataLoader.construct exLoader6 none 4).iterate).pulls
        = min 4 exLoader6.length ∧
      ∀ t, 1 ≤ t →
        ((runTraversals (CachedDataLoader.construct exLoader6 none 4) t).iterate).pulls = 0) :=
  ⟨⟨by decide, by decide, by decide⟩,
    c4_source_pull_counts exLoader6 4 (by decide) (by decide) (by decide)⟩

/-- C6: cursor state persists across traversals: after the first full
traversal of a good source the cursor stands at `L % C` (not reset to
`0`), and the second traversal continues the round-robin from there — its
`k`-th yielded item is the cache entry at `(L % C + k) % C`.  The
concrete `L = 6`, `C = 4` instance of the claim is checked in the
witness. -/
theorem c6_cursor_continuity {α : Type} (dl : DataLoader α) (R : Nat)
    (hR : 1 ≤ R) (hL : 1 ≤ dl.length)
    (hg : goodFirst dl.items (min R dl.length) = true) :
    (runTraversals (CachedDataLoader.construct dl none R) 1).curr_index
      = dl.length % min R dl.length ∧
    ∀ k, k < dl.length →
      ((runTraversals (CachedDataLoader.construct dl none R) 1).iterate).yielded.get? k
        = (cacheOf dl R).get?
            ((dl.length % min R dl.length + k) % min R dl.length) := by
  have hcur : (runTraversals (CachedDataLoader.construct dl none R) 1).curr_index
      = dl.length % min R dl.length := by
    show ((CachedDataLoader.construct dl none R).afterIterate).curr_index = _
    simp only [CachedDataLoader.afterIterate]
    exact (iterate_construct_good dl R hR hL hg).2.2.2.1
  refine ⟨hcur, ?_⟩
  intro k hk
  have h := (iterate_good_at dl R hR hL hg 1).2.1 k hk
  rwa [hcur] at h

theorem c6_cursor_continuity_witness :
    (1 ≤ (4 : Nat) ∧ 1 ≤ exLoader6.length ∧
      goodFirst exLoader6.items (min 4 exLoader6.length) = true) ∧
    ((CachedDataLoader.construct exLoader6 none 4).iterate).yielded
      = [10, 11, 12, 13, 10, 11] ∧
    ((runTraversals (CachedDataLoader.construct exLoader6 none 4) 1).iterate).yielded
      = [12, 13, 10, 11, 12, 13] ∧
    ((runTraversals (CachedDataLoader.construct exLoader6 none 4) 1).curr_index
        = exLoader6.length % min 4 exLoader6.length ∧
      ∀ k, k < exLoader6.length →
        ((runTraversals (CachedDataLoader.construct exLoader6 none 4) 1).iterate).yielded.get? k
          = (cacheOf exLoader6 4).get?
              ((exLoader6.length % min 4 exLoader6.length + k)
                % min 4 exLoader6.length)) :=
  ⟨⟨by decide, by decide, by decide⟩, by decide, by decide,
    c6_cursor_continuity exLoader6 4 (by decide) (by decide) (by decide)⟩

/-- C7: state invariant, for every source (also misbehaving ones) and a
positive requested cache size: at any point of any traversal — after `k`
of the outer-loop iterations of the traversal following `t` completed
traversals — (i) whenever the cache is populated the cursor lies in
`[0, num_batches)`, and (ii) a cache populated at traversal start is
still exactly the same list: it is never refreshed, invalidated or
extended. -/
theorem c7_state_invariant {α : Type} (dl : DataLoader α) (R t k : Nat)
    (hR : 1 ≤ R) (hk : k ≤ dl.length) :
    (∀ l,
      (midState (runTraversals (CachedDataLoader.construct dl none R) t) k).outputs
          = some l →
      (midState (runTraversals (CachedDataLoader.construct dl none R) t) k).curr_index
        < (runTraversals (CachedDataLoader.construct dl none R) t).num_batches) ∧
    (∀ l,
      (runTraversals (CachedDataLoader.construct dl none R) t).outputs = some l →
      (midState (runTraversals (CachedDataLoader.construct dl none R) t) k).outputs
        = some l) := by
  obtain ⟨w1, w2⟩ := runTraversals_WF dl none R hR t
  by_cases hL : 1 ≤ dl.length
  · have hnb : 1 ≤ (runTraversals (CachedDataLoader.construct dl none R) t).num_batches := by
      rw [(runTraversals_fields _ t).2]
      show 1 ≤ min R dl.length
      omega
    obtain ⟨c1, c2, _⟩ :=
      iterLoop_cursor_inv
        (runTraversals (CachedDataLoader.construct dl none R) t).num_batches
        (runTraversals (CachedDataLoader.construct dl none R) t).dataloader.items
        hnb k
        (runTraversals (CachedDataLoader.construct dl none R) t).outputs
        (runTraversals (CachedDataLoader.construct dl none R) t).curr_index
        w1 w2
    exact ⟨c1, c2⟩
  · have hk0 : k = 0 := by omega
    subst hk0
    exact ⟨fun l hl => w2 l hl, fun l hl => hl⟩

theorem c7_state_invariant_witness :
    (1 ≤ (4 : Nat) ∧ 3 ≤ exLoader6.length) ∧
    ((∀ l,
        (midState (runTraversals (CachedDataLoader.construct exLoader6 none 4) 1) 3).outputs
            = some l →
        (midState (runTraversals (CachedDataLoader.construct exLoader6 none 4) 1) 3).curr_index
          < (runTraversals (CachedDataLoader.construct exLoader6 none 4) 1).num_batches) ∧
      (∀ l,
        (runTraversals (CachedDataLoader.construct exLoader6 none 4) 1).outputs = some l →
        (midState (runTraversals (CachedDataLoader.construct exLoader6 none 4) 1) 3).outputs
          = some l)) :=
  ⟨⟨by decide, by decide⟩,
    c7_state_invariant exLoader6 4 1 3 (by decide) (by decide)⟩

end StreamPETR
